import Mathlib

/-! # httpcli: client construction, request construction and response dispatch

A shallow embedding of the Go package `httpcli` (`client.go`, `request.go`,
`response.go`) and of the handler of its example program (`example/main.go`).

Conventions of the embedding

* A Go `error` is modelled by its text (`err.Error()`); `nil` is `none`.
  `fmt.Errorf("ctx: %s", err)` is `"ctx: " ++ e`.
* A pointer to a struct is modelled by the value of the pointee, threaded
  through every callee that receives the pointer; a nil pointer is `none`.
* Everything else a callee can touch (captured variables, files, the network,
  body streams) lives in a world `W`, threaded explicitly.
* Option functions and handlers are arbitrary Go closures; they are modelled
  as arbitrary functions on the threaded state that also report the external
  operations they performed.
* The three `for _, f := range fs` loops of the package keep a ghost log of
  the indices they invoked, in invocation order.
-/

set_option linter.dupNamespace false

namespace Httpcli

/-- Text of a Go `error` value. -/
abbrev GoError := String

/-- Byte strings (`[]byte`). -/
abbrev Bytes := String

/-! ## The loop shared by `New`, `NewRequest` and `Execute` -/

/-- Outcome of one call of an option function or handler: the state it leaves,
the external operations it performed, and the error it returned. -/
structure CallOut (S X : Type) where
  state : S
  io : List X
  err : Option GoError

/-- Outcome of a `range` loop: final state, the ghost log of invocations
(index of the callee and the external operations of that call), and the error
of the callee that stopped the loop, if any. -/
structure LoopOut (S X : Type) where
  state : S
  calls : List (Nat × List X)
  err : Option GoError

/-- Embedding of
`for _, f := range fs { err := f(obj); if err != nil { return ..err.. } }`,
started at index `i`. -/
def rangeLoop {S X : Type} : List (S → CallOut S X) → Nat → S → LoopOut S X
  | [], _, s => ⟨s, [], none⟩
  | f :: fs, i, s =>
    let o := f s
    match o.err with
    | some e => ⟨o.state, [(i, o.io)], some e⟩
    | none =>
      let r := rangeLoop fs (i + 1) o.state
      ⟨r.state, (i, o.io) :: r.calls, r.err⟩

/-- Specification side: the state in which callee number `i` is entered when
every earlier callee has been run, one after the other, from `s`. -/
def stateBefore {S X : Type} (fs : List (S → CallOut S X)) (s : S) : Nat → S
  | 0 => s
  | i + 1 =>
    match fs[i]? with
    | some f => (f (stateBefore fs s i)).state
    | none => stateBefore fs s i

/-- Specification side: what callee number `i` does when entered in
`stateBefore fs s i`. -/
def outAt {S X : Type} (fs : List (S → CallOut S X)) (s : S) (i : Nat) :
    Option (CallOut S X) :=
  (fs[i]?).map (fun f => f (stateBefore fs s i))

/-- Specification side: the error returned by callee number `i`. -/
def errAt {S X : Type} (fs : List (S → CallOut S X)) (s : S) (i : Nat) :
    Option GoError :=
  (outAt fs s i).bind (fun o => o.err)

/-- Specification side: the external operations performed by callee `i`. -/
def ioAt {S X : Type} (fs : List (S → CallOut S X)) (s : S) (i : Nat) : List X :=
  match outAt fs s i with
  | some o => o.io
  | none => []

/-- Specification side: the log of a loop that ran callees `0..n-1`, started at index `j`. -/
def callLog {S X : Type} (fs : List (S → CallOut S X)) (s : S) (j n : Nat) :
    List (Nat × List X) :=
  (List.range n).map (fun i => (j + i, ioAt fs s i))

/-! ## Client construction (`client.go`) -/

/-- A `time.Duration`, in nanoseconds. -/
abbrev Duration := Int

/-- The constant `time.Second`. -/
def Second : Duration := 1000000000

/-- The fields of `net.Dialer` that `New` sets. -/
structure Dialer where
  Timeout : Duration
  KeepAlive : Duration
  DualStack : Bool
deriving DecidableEq, Repr

/-- Values of the `Proxy` field of a transport. -/
inductive ProxyPolicy where
  | ProxyFromEnvironment
  | custom (id : Nat)
deriving DecidableEq, Repr

/-- An `x509.CertPool`: the certificates it holds. -/
abbrev CertPool := List Bytes

/-- A `tls.Config`; a literal `&tls.Config{RootCAs: p}` leaves every other
field at its zero value. -/
structure TLSConfig where
  RootCAs : Option CertPool
  InsecureSkipVerify : Bool
deriving DecidableEq, Repr

/-- The literal `&tls.Config{RootCAs: certPool}`. -/
def TLSConfig.withRootCAs (certPool : CertPool) : TLSConfig :=
  { RootCAs := some certPool, InsecureSkipVerify := false }

/-- The fields of `http.Transport` this package reads or writes; a nil
function or pointer field is `none`. -/
structure Transport where
  Proxy : Option ProxyPolicy
  DialContext : Option Dialer
  TLSClientConfig : Option TLSConfig
  MaxIdleConns : Int
  MaxIdleConnsPerHost : Int
  IdleConnTimeout : Duration
  TLSHandshakeTimeout : Duration
  ExpectContinueTimeout : Duration
  DisableCompression : Bool
  DisableKeepAlives : Bool
deriving DecidableEq, Repr

/-- The zero value `http.Transport{}`. -/
def Transport.zero : Transport :=
  { Proxy := none, DialContext := none, TLSClientConfig := none,
    MaxIdleConns := 0, MaxIdleConnsPerHost := 0, IdleConnTimeout := 0,
    TLSHandshakeTimeout := 0, ExpectContinueTimeout := 0,
    DisableCompression := false, DisableKeepAlives := false }

/-- The interface value held by `Client.Transport`: nil, a non-nil
`*http.Transport` (with its pointee), or some other implementation. -/
inductive RoundTripper where
  | nil
  | transport (t : Transport)
  | other (id : Nat)
deriving DecidableEq, Repr

/-- The fields of `http.Client` this package reads or writes. -/
structure Client where
  Timeout : Duration
  Transport : RoundTripper
deriving DecidableEq, Repr

/-- The type `OptionFunc`: `func(*http.Client) error`, a closure that may
change the client it is given and the world. -/
abbrev OptionFunc (W X : Type) := Client × W → CallOut (Client × W) X

/-- The transport literal inside the client literal of `New`
(`client.go`, lines 26-40). -/
def New.transport : Transport :=
  { Proxy := some .ProxyFromEnvironment,
    DialContext := some { Timeout := 15 * Second, KeepAlive := 300 * Second,
                          DualStack := true },
    TLSClientConfig := none,
    MaxIdleConns := 1,
    MaxIdleConnsPerHost := 1,
    IdleConnTimeout := 20 * Second,
    TLSHandshakeTimeout := 10 * Second,
    ExpectContinueTimeout := 1 * Second,
    DisableCompression := false,
    DisableKeepAlives := false }

/-- The client literal `New` starts from (`client.go`, lines 24-41). -/
def New.cli : Client :=
  { Timeout := 20 * Second, Transport := .transport New.transport }

/-- What `New` returns (`client`, `err`), with the world it leaves and the
ghost log of the options it invoked. -/
structure NewOut (W X : Type) where
  client : Option Client
  err : Option GoError
  world : W
  calls : List (Nat × List X)

/-- The function `New`. -/
def New {W X : Type} (options : List (OptionFunc W X)) (w : W) : NewOut W X :=
  let r := rangeLoop options 0 (New.cli, w)
  match r.err with
  | some err => ⟨none, some ("apply option: " ++ err), r.state.2, r.calls⟩
  | none => ⟨some r.state.1, none, r.state.2, r.calls⟩

/-- The external operations `TLSTransport` relies on: `ioutil.ReadFile`,
`x509.NewCertPool` and `(*CertPool).AppendCertsFromPEM`. -/
structure TLSEnv (W : Type) where
  ReadFile : String → W → Except GoError Bytes
  NewCertPool : CertPool
  AppendCertsFromPEM : CertPool → Bytes → CertPool × Bool

/-- External operations logged by `TLSTransport`. -/
inductive FileEvent where
  | readFile (path : String)
deriving DecidableEq, Repr

/-- The function `TLSTransport`. -/
def TLSTransport {W : Type} (env : TLSEnv W) (CA : String) : OptionFunc W FileEvent :=
  fun (cli, w) =>
    match env.ReadFile CA w with
    | .error err => ⟨(cli, w), [.readFile CA], some ("read certificate file: " ++ err)⟩
    | .ok rootCertPEM =>
      let (certPool, ok) := env.AppendCertsFromPEM env.NewCertPool rootCertPEM
      if !ok then
        ⟨(cli, w), [.readFile CA], some "can't append root CA"⟩
      else
        match cli.Transport with
        | .transport t =>
          let t := { t with TLSClientConfig := some (TLSConfig.withRootCAs certPool) }
          ⟨({ cli with Transport := .transport t }, w), [.readFile CA], none⟩
        | _ =>
          let fresh : Transport :=
            { Transport.zero with TLSClientConfig := some (TLSConfig.withRootCAs certPool) }
          ⟨({ cli with Transport := .transport fresh }, w), [.readFile CA], none⟩

/-! ## Request construction (`request.go`) -/

/-- The fields of `url.URL` that `RequestURL` sets. -/
structure URL where
  Scheme : String
  Host : String
  Path : String
deriving DecidableEq, Repr

/-- The fields of `http.Request` this package reads or writes. A nil map or
nil body is `none`; `http.Header{}` is `some []`. -/
structure Request where
  Method : String
  URL : Option URL
  Header : Option (List (String × List String))
  Body : Option Bytes
  Host : String
deriving DecidableEq, Repr

/-- The type `RequestOptionFunc`: `func(*http.Request) error`. -/
abbrev RequestOptionFunc (W X : Type) := Request × W → CallOut (Request × W) X

/-- The request literal `NewRequest` starts from: `&http.Request{Header: http.Header{}}`. -/
def NewRequest.req : Request :=
  { Method := "", URL := none, Header := some [], Body := none, Host := "" }

/-- What `NewRequest` returns (`request`, `err`), with the world it leaves
and the ghost log of the options it invoked. -/
structure NewRequestOut (W X : Type) where
  request : Option Request
  err : Option GoError
  world : W
  calls : List (Nat × List X)

/-- The function `NewRequest`. -/
def NewRequest {W X : Type} (options : List (RequestOptionFunc W X)) (w : W) :
    NewRequestOut W X :=
  let r := rangeLoop options 0 (NewRequest.req, w)
  match r.err with
  | some err => ⟨none, some ("apply option: " ++ err), r.state.2, r.calls⟩
  | none => ⟨some r.state.1, none, r.state.2, r.calls⟩

/-- The function `RequestMethod`. -/
def RequestMethod {W X : Type} (method : String) : RequestOptionFunc W X :=
  fun (req, w) => ⟨({ req with Method := method }, w), [], none⟩

/-- The function `RequestURL`. -/
def RequestURL {W X : Type} (scheme host path : String) : RequestOptionFunc W X :=
  fun (req, w) =>
    ⟨({ req with URL := some { Scheme := scheme, Host := host, Path := path },
                 Host := host }, w), [], none⟩

/-- Specification side: the left-to-right short-circuiting fold of request
options, the first failure ending it with that failure. -/
def foldOptions {W X : Type} (options : List (RequestOptionFunc W X)) (s : Request × W) :
    Except GoError (Request × W) :=
  options.foldlM (fun st opt =>
    match (opt st).err with
    | some e => Except.error e
    | none => Except.ok (opt st).state) s

/-! ## Response dispatch (`response.go`) -/

/-- The fields of `http.Response` this package reads: the status code and
the body, an `io.ReadCloser` interface value of type `B`. -/
structure Response (B : Type) where
  StatusCode : Int
  Body : B
deriving DecidableEq, Repr

/-- What `client.Do(req)` returns. By the contract of `net/http`, a nil error
comes with a non-nil response, and a non-nil error comes with a nil response
except when `CheckRedirect` fails, where both are non-nil. -/
inductive DoOutcome (B : Type) where
  | ok (resp : Response B)
  | fail (err : GoError)
  | failWithResp (resp : Response B) (err : GoError)

/-- The response returned by `Do`, `none` for nil. -/
def DoOutcome.resp {B : Type} : DoOutcome B → Option (Response B)
  | .ok resp => some resp
  | .fail _ => none
  | .failWithResp resp _ => some resp

/-- The error returned by `Do`, `none` for nil. -/
def DoOutcome.err {B : Type} : DoOutcome B → Option GoError
  | .ok _ => none
  | .fail err => some err
  | .failWithResp _ err => some err

/-- The external operations `Execute` relies on: `(*http.Client).Do` and the
`Close` method of the response body. -/
structure Net (B W : Type) where
  Do : Client → Request → W → DoOutcome B × W
  Close : B → W → Option GoError × W

/-- The external operations the JSON handlers rely on: `ioutil.ReadAll` on
the response body and `json.Unmarshal` into a destination `D`. -/
structure Codec (B D W : Type) where
  ReadAll : B → W → (Bytes × Option GoError) × W
  Unmarshal : Bytes → D → W → Option GoError × W

/-- External operations logged by handlers. -/
inductive IOEvent (B D : Type) where
  | readAll (body : B)
  | unmarshal (buf : Bytes) (v : D)
  | unmarshalLocal (buf : Bytes)
deriving DecidableEq, Repr

/-- The type `ResponseHandlerFunc`: `func(resp *http.Response) error`, a
closure that may change the response it is given and the world. -/
abbrev ResponseHandlerFunc (B D W : Type) :=
  Response B × W → CallOut (Response B × W) (IOEvent B D)

/-- The function `ignoreErr`, whose body is empty. -/
def ignoreErr (_err : Option GoError) : Unit := ()

/-- What `Execute` returns (`err`), with the response and world it leaves,
the ghost log of the handlers it invoked, and the bodies it closed. -/
structure ExecOut (B D W : Type) where
  err : Option GoError
  resp : Option (Response B)
  world : W
  calls : List (Nat × List (IOEvent B D))
  closed : List B

/-- The statements of `Execute` after the `defer` statement (lines 26-35):
the error check and the handler loop. -/
def Execute.body {B D W : Type} (o : DoOutcome B) (handlers : List (ResponseHandlerFunc B D W))
    (w : W) : ExecOut B D W :=
  match o with
  | .fail err => ⟨some ("send request: " ++ err), none, w, [], []⟩
  | .failWithResp resp err => ⟨some ("send request: " ++ err), some resp, w, [], []⟩
  | .ok resp =>
    let r := rangeLoop handlers 0 (resp, w)
    match r.err with
    | some err => ⟨some ("handle: " ++ err), some r.state.1, r.state.2, r.calls, []⟩
    | none => ⟨none, some r.state.1, r.state.2, r.calls, []⟩

/-- The function `Execute`. The deferred call closes `resp.Body` as it was
when the `defer` statement ran, after the body of the function, and its
error goes to `ignoreErr`. -/
def Execute {B D W : Type} (net : Net B W) (client : Client) (req : Request)
    (handlers : List (ResponseHandlerFunc B D W)) (w : W) : ExecOut B D W :=
  let (o, w1) := net.Do client req w
  let out := Execute.body o handlers w1
  match o.resp with
  | some resp =>
    let (cerr, w2) := net.Close resp.Body out.world
    let _ := ignoreErr cerr
    { out with world := w2, closed := [resp.Body] }
  | none => out

/-- The statements shared by the two JSON handlers inside their `if`:
read the whole body, then decode it into `v`. -/
def readJSON {B D W : Type} (io : Codec B D W) (v : D) :
    ResponseHandlerFunc B D W :=
  fun (resp, w) =>
    let ((buf, rerr), w1) := io.ReadAll resp.Body w
    match rerr with
    | some err => ⟨(resp, w1), [.readAll resp.Body], some ("read response body: " ++ err)⟩
    | none =>
      let (uerr, w2) := io.Unmarshal buf v w1
      match uerr with
      | some err =>
        ⟨(resp, w2), [.readAll resp.Body, .unmarshal buf v], some ("unmarshal json: " ++ err)⟩
      | none => ⟨(resp, w2), [.readAll resp.Body, .unmarshal buf v], none⟩

/-- The function `HandleSuccessJSONResponse`; a nil `v` is `none`. -/
def HandleSuccessJSONResponse {B D W : Type} (io : Codec B D W) (v : Option D) :
    ResponseHandlerFunc B D W :=
  fun (resp, w) =>
    match v with
    | some d =>
      if resp.StatusCode ≥ 200 ∧ resp.StatusCode ≤ 299 then readJSON io d (resp, w)
      else ⟨(resp, w), [], none⟩
    | none => ⟨(resp, w), [], none⟩

/-- The function `HandleFailJSONResponse`; a nil `v` is `none`. -/
def HandleFailJSONResponse {B D W : Type} (io : Codec B D W) (v : Option D) :
    ResponseHandlerFunc B D W :=
  fun (resp, w) =>
    match v with
    | some d =>
      if resp.StatusCode ≥ 400 ∧ resp.StatusCode ≤ 599 then readJSON io d (resp, w)
      else ⟨(resp, w), [], none⟩
    | none => ⟨(resp, w), [], none⟩

/-! ## The example program (`example/main.go`) -/

namespace Example

/-- The type `State`. -/
structure State where
  Value : String
deriving DecidableEq, Repr

/-- The type `Error`. -/
structure Error where
  Text : String
deriving DecidableEq, Repr

/-- The method `(*Error).Error`. -/
def Error.Error (e : Error) : GoError := e.Text

/-- The function `HandleFailJSONResponse` of the example program. The
parameter `UnmarshalError` is `json.Unmarshal` into a pointer to an `Error`:
from the bytes and the value the pointee has, the value it is left with and
the error returned. -/
def HandleFailJSONResponse {B D W : Type} (io : Codec B D W)
    (UnmarshalError : Bytes → Error → Error × Option GoError) :
    ResponseHandlerFunc B D W :=
  fun (resp, w) =>
    if resp.StatusCode ≥ 400 ∧ resp.StatusCode ≤ 599 then
      let ((buf, rerr), w1) := io.ReadAll resp.Body w
      match rerr with
      | some err => ⟨(resp, w1), [.readAll resp.Body], some ("read response body: " ++ err)⟩
      | none =>
        let (apierr, uerr) := UnmarshalError buf { Text := "" }
        match uerr with
        | some err =>
          ⟨(resp, w1), [.readAll resp.Body, .unmarshalLocal buf],
            some ("unmarshal json: " ++ err)⟩
        | none =>
          ⟨(resp, w1), [.readAll resp.Body, .unmarshalLocal buf], some apierr.Error⟩
    else ⟨(resp, w), [], none⟩

end Example

/-! ## The end-to-end scenario of the example program -/

namespace Scenario

/-- The two destinations of the scenario: the one given to the fail-JSON
handler and the one given to the success-JSON handler. -/
inductive Dest where
  | errDest
  | dest
deriving DecidableEq, Repr

/-- The world of the scenario: the unread part of the response body, the two
destinations, and how often the body was closed. -/
structure World where
  stream : Bytes
  errDest : Example.Error
  dest : Example.State
  closes : Nat
deriving DecidableEq, Repr

/-- The endpoint of the scenario: `Do` succeeds with the given status code
and body; `Close` succeeds. -/
def net (status : Int) (body : Bytes) : Net Unit World :=
  { Do := fun _ _ w => (.ok { StatusCode := status, Body := () }, { w with stream := body }),
    Close := fun _ w => (none, { w with closes := w.closes + 1 }) }

/-- Reading and decoding in the scenario: `ReadAll` drains the stream;
`Unmarshal` decodes into the destination named, with `json.Unmarshal` for the
two struct types given as parameters. -/
def codec (UnmarshalError : Bytes → Example.Error → Example.Error × Option GoError)
    (UnmarshalState : Bytes → Example.State → Example.State × Option GoError) :
    Codec Unit Dest World :=
  { ReadAll := fun _ w => ((w.stream, none), { w with stream := "" }),
    Unmarshal := fun buf v w =>
      match v with
      | .errDest =>
        let (x, err) := UnmarshalError buf w.errDest
        (err, { w with errDest := x })
      | .dest =>
        let (x, err) := UnmarshalState buf w.dest
        (err, { w with dest := x }) }

/-- The value of the only field of a JSON object of the form
`{"key":"value"}`, `value` without quote or backslash; `none` on any
other input. -/
def stringField (key : String) (buf : Bytes) : Option String :=
  let pre := ("\x7b\"" ++ key ++ "\":\"").toList
  let suf := "\"\x7d".toList
  let cs := buf.toList
  if pre.isPrefixOf cs ∧ suf.isSuffixOf (cs.drop pre.length) then
    let val := (cs.drop pre.length).take (cs.length - pre.length - suf.length)
    if val.all (fun c => c ≠ '"' ∧ c ≠ '\\') then some (String.mk val) else none
  else none

/-- Stand-in for `json.Unmarshal` into an `Error`, exact on the inputs
`stringField "error"` accepts; any other input is reported as an error. -/
def UnmarshalError (buf : Bytes) (old : Example.Error) : Example.Error × Option GoError :=
  match stringField "error" buf with
  | some t => ({ Text := t }, none)
  | none => (old, some "json: input outside the stand-in")

/-- Stand-in for `json.Unmarshal` into a `State`, exact on the inputs
`stringField "value"` accepts; any other input is reported as an error. -/
def UnmarshalState (buf : Bytes) (old : Example.State) : Example.State × Option GoError :=
  match stringField "value" buf with
  | some t => ({ Value := t }, none)
  | none => (old, some "json: input outside the stand-in")

/-- The response body `{"error":"unavailable"}`. -/
def unavailable : Bytes := "\x7b\"error\":\"unavailable\"\x7d"

/-- The world the scenario starts in. -/
def world0 : World :=
  { stream := "", errDest := { Text := "" }, dest := { Value := "initial" }, closes := 0 }

end Scenario

/-! ## Counting stubs -/

namespace Stub

/-- A client option that counts its invocations in the world and sets the
client timeout. -/
def setTimeout (d : Duration) : OptionFunc Nat FileEvent :=
  fun (cli, n) => ⟨({ cli with Timeout := d }, n + 1), [], none⟩

/-- A client option that counts its invocations in the world and fails. -/
def failing (e : GoError) : OptionFunc Nat FileEvent :=
  fun (cli, n) => ⟨(cli, n + 1), [], some e⟩

/-- A request option that counts its invocations in the world and fails. -/
def failingRequest (e : GoError) : RequestOptionFunc Nat FileEvent :=
  fun (req, n) => ⟨(req, n + 1), [], some e⟩

/-- A request option that counts its invocations in the world and sets the
method. -/
def countedMethod (method : String) : RequestOptionFunc Nat FileEvent :=
  fun (req, n) => ⟨({ req with Method := method }, n + 1), [], none⟩

/-- A handler that counts its invocations in the world and succeeds. -/
def passing : ResponseHandlerFunc Unit Unit Nat :=
  fun (resp, n) => ⟨(resp, n + 1), [], none⟩

/-- A handler that counts its invocations in the world and fails. -/
def failingHandler (e : GoError) : ResponseHandlerFunc Unit Unit Nat :=
  fun (resp, n) => ⟨(resp, n + 1), [], some e⟩

/-- A file system with the one file `ca.pem`, and a parser that takes any
non-empty content for one certificate. -/
def tlsEnv : TLSEnv Nat :=
  { ReadFile := fun path _ =>
      if path = "ca.pem" then .ok "-----BEGIN CERTIFICATE-----"
      else .error ("open " ++ path ++ ": no such file or directory"),
    NewCertPool := [],
    AppendCertsFromPEM := fun pool pem =>
      if pem = "" then (pool, false) else (pool ++ [pem], true) }

/-- A client whose `Do` has the given outcome and a body whose `Close`
returns the given error. -/
def net (o : DoOutcome Unit) (closeErr : Option GoError) : Net Unit Nat :=
  { Do := fun _ _ n => (o, n), Close := fun _ n => (closeErr, n) }

end Stub

/-! ### Facts about the loop -/

theorem stateBefore_cons {S X : Type} (f : S → CallOut S X) (fs : List (S → CallOut S X))
    (s : S) (i : Nat) :
    stateBefore (f :: fs) s (i + 1) = stateBefore fs (f s).state i := by
  induction i with
  | zero => simp [stateBefore]
  | succ n ih =>
    rw [stateBefore, ih]
    simp only [List.getElem?_cons_succ]
    cases h : fs[n]? with
    | none => simp [stateBefore, h]
    | some g => simp [stateBefore, h]

theorem errAt_cons_zero {S X : Type} (f : S → CallOut S X) (fs : List (S → CallOut S X))
    (s : S) : errAt (f :: fs) s 0 = (f s).err := by
  simp [errAt, outAt, stateBefore]

theorem ioAt_cons_zero {S X : Type} (f : S → CallOut S X) (fs : List (S → CallOut S X))
    (s : S) : ioAt (f :: fs) s 0 = (f s).io := by
  simp [ioAt, outAt, stateBefore]

theorem outAt_cons_succ {S X : Type} (f : S → CallOut S X) (fs : List (S → CallOut S X))
    (s : S) (i : Nat) : outAt (f :: fs) s (i + 1) = outAt fs (f s).state i := by
  simp [outAt, stateBefore_cons]

theorem errAt_cons_succ {S X : Type} (f : S → CallOut S X) (fs : List (S → CallOut S X))
    (s : S) (i : Nat) : errAt (f :: fs) s (i + 1) = errAt fs (f s).state i := by
  simp [errAt, outAt_cons_succ]

theorem ioAt_cons_succ {S X : Type} (f : S → CallOut S X) (fs : List (S → CallOut S X))
    (s : S) (i : Nat) : ioAt (f :: fs) s (i + 1) = ioAt fs (f s).state i := by
  simp [ioAt, outAt_cons_succ]

theorem callLog_cons {S X : Type} (f : S → CallOut S X) (fs : List (S → CallOut S X))
    (s : S) (j n : Nat) :
    callLog (f :: fs) s j (n + 1) = (j, (f s).io) :: callLog fs (f s).state (j + 1) n := by
  simp only [callLog, List.range_succ_eq_map, List.map_cons, List.map_map, Nat.add_zero,
    ioAt_cons_zero]
  congr 1
  apply List.map_congr_left
  intro i _
  simp [ioAt_cons_succ, Nat.add_assoc, Nat.add_comm 1 i]

theorem callLog_indices {S X : Type} (fs : List (S → CallOut S X)) (s : S) (n : Nat) :
    (callLog fs s 0 n).map Prod.fst = List.range n := by
  simp [callLog, Function.comp_def]

/-- When callee `k` is the first to return an error, the loop runs callees
`0..k` and stops there. -/
theorem rangeLoop_first_error {S X : Type} (fs : List (S → CallOut S X)) :
    ∀ (j : Nat) (s : S) (k : Nat) (e : GoError),
      (∀ i, i < k → errAt fs s i = none) → errAt fs s k = some e →
      rangeLoop fs j s = ⟨stateBefore fs s (k + 1), callLog fs s j (k + 1), some e⟩ := by
  induction fs with
  | nil =>
    intro j s k e _ hk
    simp [errAt, outAt] at hk
  | cons f fs ih =>
    intro j s k e hlt hk
    cases k with
    | zero =>
      rw [errAt_cons_zero] at hk
      simp [rangeLoop, hk, stateBefore, callLog, ioAt_cons_zero, List.range_succ]
    | succ k =>
      have h0 : (f s).err = none := by
        have := hlt 0 (Nat.succ_pos k)
        rwa [errAt_cons_zero] at this
      have hlt2 : ∀ i, i < k → errAt fs (f s).state i = none := by
        intro i hi
        have := hlt (i + 1) (Nat.succ_lt_succ hi)
        rwa [errAt_cons_succ] at this
      rw [errAt_cons_succ] at hk
      have hr := ih (j + 1) (f s).state k e hlt2 hk
      rw [rangeLoop]
      simp only [h0, hr, stateBefore_cons, callLog_cons]

/-- When no callee returns an error, the loop runs every callee. -/
theorem rangeLoop_no_error {S X : Type} (fs : List (S → CallOut S X)) :
    ∀ (j : Nat) (s : S),
      (∀ i, i < fs.length → errAt fs s i = none) →
      rangeLoop fs j s = ⟨stateBefore fs s fs.length, callLog fs s j fs.length, none⟩ := by
  induction fs with
  | nil =>
    intro j s _
    simp [rangeLoop, stateBefore, callLog]
  | cons f fs ih =>
    intro j s hall
    have h0 : (f s).err = none := by
      have := hall 0 (by simp)
      rwa [errAt_cons_zero] at this
    have hall2 : ∀ i, i < fs.length → errAt fs (f s).state i = none := by
      intro i hi
      have := hall (i + 1) (by simpa using hi)
      rwa [errAt_cons_succ] at this
    have hr := ih (j + 1) (f s).state hall2
    rw [rangeLoop]
    simp only [h0, hr, List.length_cons, stateBefore_cons, callLog_cons]

/-- The loop and the short-circuiting fold agree on the error and, when there
is none, on the final state. -/
theorem rangeLoop_eq_fold {S X : Type} (fs : List (S → CallOut S X)) :
    ∀ (j : Nat) (s : S),
      (match fs.foldlM (fun st f =>
          match (f st).err with
          | some e => Except.error e
          | none => Except.ok (f st).state) s with
        | Except.ok s' => (rangeLoop fs j s).err = none ∧ (rangeLoop fs j s).state = s'
        | Except.error e => (rangeLoop fs j s).err = some e) := by
  induction fs with
  | nil => intro j s; simp [rangeLoop, pure, Except.pure]
  | cons f fs ih =>
    intro j s
    rw [List.foldlM_cons, rangeLoop]
    cases h : (f s).err with
    | some e => simp [bind, Except.bind]
    | none =>
      have := ih (j + 1) (f s).state
      simpa [bind, Except.bind] using this

/-- A setting that one callee leaves at `v` and no later callee among the
first `N` changes is still `v` after any of them. -/
theorem stateBefore_last_write {S X α : Type} (fs : List (S → CallOut S X)) (s : S)
    (get : S → α) (j N : Nat) (v : α)
    (hw : get (stateBefore fs s (j + 1)) = v)
    (hkeep : ∀ i, j < i → i < N →
      get (stateBefore fs s (i + 1)) = get (stateBefore fs s i)) :
    ∀ n, j < n → n ≤ N → get (stateBefore fs s n) = v := by
  intro n hn
  induction n with
  | zero => omega
  | succ n ih =>
    intro hN
    by_cases h : j = n
    · subst h; exact hw
    · have hjn : j < n := by omega
      rw [hkeep n hjn (by omega)]
      exact ih hjn (by omega)

/-- The log of a loop lists an initial segment of the callees. -/
theorem rangeLoop_calls_initial {S X : Type} (fs : List (S → CallOut S X)) :
    ∀ (j : Nat) (s : S), ∃ m, m ≤ fs.length ∧ (rangeLoop fs j s).calls = callLog fs s j m := by
  induction fs with
  | nil => intro j s; exact ⟨0, Nat.le_refl _, by simp [rangeLoop, callLog]⟩
  | cons f fs ih =>
    intro j s
    cases h : (f s).err with
    | some e =>
      refine ⟨1, by simp, ?_⟩
      simp [rangeLoop, h, callLog, List.range_succ, ioAt_cons_zero]
    | none =>
      obtain ⟨m, hm, hc⟩ := ih (j + 1) (f s).state
      refine ⟨m + 1, by simpa using hm, ?_⟩
      rw [rangeLoop]
      simp only [h, hc, callLog_cons]

/-! ## Client construction -/

/-- C3: when option `k` is the first to return an error `e`, `New` returns no
client and the error `"apply option: " ++ e`, and it has invoked the options
`0..k`, each once and in order, and none after `k`. -/
theorem New_first_failing_option {W X : Type} (options : List (OptionFunc W X)) (w : W)
    (k : Nat) (e : GoError)
    (hbefore : ∀ i, i < k → errAt options (New.cli, w) i = none)
    (hk : errAt options (New.cli, w) k = some e) :
    (New options w).client = none ∧
    (New options w).err = some ("apply option: " ++ e) ∧
    (New options w).calls.map Prod.fst = List.range (k + 1) ∧
    (New options w).calls = callLog options (New.cli, w) 0 (k + 1) ∧
    (New options w).world = (stateBefore options (New.cli, w) (k + 1)).2 := by
  have h := rangeLoop_first_error options 0 (New.cli, w) k e hbefore hk
  simp only [New, h, callLog_indices]
  simp

/-- Witness of `New_first_failing_option`: three counting options, the second
of which fails. -/
theorem New_first_failing_option_witness :
    (New [Stub.setTimeout 5, Stub.failing "boom", Stub.setTimeout 7] 0).client = none ∧
    (New [Stub.setTimeout 5, Stub.failing "boom", Stub.setTimeout 7] 0).err
      = some "apply option: boom" ∧
    (New [Stub.setTimeout 5, Stub.failing "boom", Stub.setTimeout 7] 0).calls.map Prod.fst
      = [0, 1] ∧
    (New [Stub.setTimeout 5, Stub.failing "boom", Stub.setTimeout 7] 0).world = 2 := by
  have h := New_first_failing_option
    [Stub.setTimeout 5, Stub.failing "boom", Stub.setTimeout 7] 0 1 "boom"
    (by decide) (by decide)
  refine ⟨h.1, h.2.1, h.2.2.1, ?_⟩
  rw [h.2.2.2.2]
  decide

/-- C4: when every option succeeds, `New` returns, with a nil error, the
client obtained by applying the options left to right, each once, to the
baseline client (timeout 20s, dial timeout 15s, keep-alive 300s, one idle
connection in all and per host, idle timeout 20s, TLS handshake timeout 10s,
expect-continue timeout 1s, compression and keep-alives enabled); a setting
left at `v` by option `j` and changed by no later option is `v` in the
result. -/
theorem New_all_options_succeed {W X : Type} (options : List (OptionFunc W X)) (w : W)
    (hall : ∀ i, i < options.length → errAt options (New.cli, w) i = none) :
    (New options w).err = none ∧
    (New options w).client = some (stateBefore options (New.cli, w) options.length).1 ∧
    (New options w).calls.map Prod.fst = List.range options.length ∧
    (New options w).calls = callLog options (New.cli, w) 0 options.length ∧
    stateBefore options (New.cli, w) 0 = (New.cli, w) ∧
    New.cli = { Timeout := 20000000000,
                Transport := .transport
                  { Proxy := some .ProxyFromEnvironment,
                    DialContext := some { Timeout := 15000000000,
                                          KeepAlive := 300000000000,
                                          DualStack := true },
                    TLSClientConfig := none,
                    MaxIdleConns := 1,
                    MaxIdleConnsPerHost := 1,
                    IdleConnTimeout := 20000000000,
                    TLSHandshakeTimeout := 10000000000,
                    ExpectContinueTimeout := 1000000000,
                    DisableCompression := false,
                    DisableKeepAlives := false } } ∧
    (∀ (α : Type) (get : Client → α) (j : Nat) (v : α), j < options.length →
      get (stateBefore options (New.cli, w) (j + 1)).1 = v →
      (∀ i, j < i → i < options.length →
        get (stateBefore options (New.cli, w) (i + 1)).1
          = get (stateBefore options (New.cli, w) i).1) →
      (New options w).client.map get = some v) := by
  have h := rangeLoop_no_error options 0 (New.cli, w) hall
  have hc : (New options w).client
      = some (stateBefore options (New.cli, w) options.length).1 := by
    simp [New, h]
  refine ⟨by simp [New, h], hc, by simp [New, h, callLog_indices], by simp [New, h],
    rfl, by decide, ?_⟩
  intro α get j v hj hw hkeep
  rw [hc]
  simp only [Option.map_some']
  congr 1
  exact stateBefore_last_write options (New.cli, w) (fun s => get s.1) j options.length v
    hw hkeep options.length hj (Nat.le_refl _)

/-- Witness of `New_all_options_succeed`: two counting options that both set
the timeout; the result carries the value written by the second. -/
theorem New_all_options_succeed_witness :
    (New [Stub.setTimeout 5, Stub.setTimeout 7] 0).err = none ∧
    (New [Stub.setTimeout 5, Stub.setTimeout 7] 0).calls.map Prod.fst = [0, 1] ∧
    (New [Stub.setTimeout 5, Stub.setTimeout 7] 0).client.map (fun c => c.Timeout)
      = some 7 := by
  have h := New_all_options_succeed [Stub.setTimeout 5, Stub.setTimeout 7] 0 (by decide)
  exact ⟨h.1, h.2.2.1,
    h.2.2.2.2.2.2 Duration (fun c => c.Timeout) 1 7 (by decide) (by decide)
      (by intro i h1 h2; simp at h2; omega)⟩

/-! ## Request construction -/

/-- C5: `NewRequest` is the left-to-right short-circuiting fold of the
options over the empty request with an empty, non-nil header mapping. When
all options succeed it returns the request after all of them, applied in
order, and a nil error; when option `k` is the first to fail with `e` it
returns no request and the error `"apply option: " ++ e`, having invoked
options `0..k` and none after `k`; in both cases the world is the one that
exactly the invoked options leave behind. -/
theorem NewRequest_is_short_circuit_fold {W X : Type}
    (options : List (RequestOptionFunc W X)) (w : W) :
    NewRequest.req = { Method := "", URL := none, Header := some [], Body := none,
                       Host := "" } ∧
    ((NewRequest options w).request, (NewRequest options w).err)
      = (match foldOptions options (NewRequest.req, w) with
         | Except.ok s => (some s.1, none)
         | Except.error e => (none, some ("apply option: " ++ e))) ∧
    ((∀ i, i < options.length → errAt options (NewRequest.req, w) i = none) →
      (NewRequest options w).request
        = some (stateBefore options (NewRequest.req, w) options.length).1 ∧
      (NewRequest options w).err = none ∧
      (NewRequest options w).calls.map Prod.fst = List.range options.length ∧
      (NewRequest options w).world
        = (stateBefore options (NewRequest.req, w) options.length).2) ∧
    (∀ k e, (∀ i, i < k → errAt options (NewRequest.req, w) i = none) →
      errAt options (NewRequest.req, w) k = some e →
      (NewRequest options w).request = none ∧
      (NewRequest options w).err = some ("apply option: " ++ e) ∧
      (NewRequest options w).calls.map Prod.fst = List.range (k + 1) ∧
      (NewRequest options w).world
        = (stateBefore options (NewRequest.req, w) (k + 1)).2) := by
  refine ⟨rfl, ?_, ?_, ?_⟩
  · have h := rangeLoop_eq_fold options 0 (NewRequest.req, w)
    unfold foldOptions
    cases hf : List.foldlM (fun st (f : RequestOptionFunc W X) =>
        match (f st).err with
        | some e => Except.error e
        | none => Except.ok (f st).state) (NewRequest.req, w) options with
    | ok s' =>
      rw [hf] at h
      simp [NewRequest, h.1, h.2]
    | error e =>
      rw [hf] at h
      simp at h
      simp [NewRequest, h]
  · intro hall
    have h := rangeLoop_no_error options 0 (NewRequest.req, w) hall
    simp [NewRequest, h, callLog_indices]
  · intro k e hbefore hk
    have h := rangeLoop_first_error options 0 (NewRequest.req, w) k e hbefore hk
    simp [NewRequest, h, callLog_indices]

/-- Witness of `NewRequest_is_short_circuit_fold`: two options that succeed;
and a method option, a failing option and another method option, the third
of which is never invoked: the world counts two invocations. -/
theorem NewRequest_is_short_circuit_fold_witness :
    ((NewRequest [RequestMethod "GET", RequestURL "http" "127.0.0.1:8080" "/state"] 0
        : NewRequestOut Nat FileEvent).request
      = some { Method := "GET",
               URL := some { Scheme := "http", Host := "127.0.0.1:8080", Path := "/state" },
               Header := some [], Body := none, Host := "127.0.0.1:8080" }) ∧
    (NewRequest [Stub.countedMethod "GET", Stub.failingRequest "boom",
        Stub.countedMethod "PUT"] 0).request = none ∧
    (NewRequest [Stub.countedMethod "GET", Stub.failingRequest "boom",
        Stub.countedMethod "PUT"] 0).err = some "apply option: boom" ∧
    (NewRequest [Stub.countedMethod "GET", Stub.failingRequest "boom",
        Stub.countedMethod "PUT"] 0).calls.map Prod.fst = [0, 1] ∧
    (NewRequest [Stub.countedMethod "GET", Stub.failingRequest "boom",
        Stub.countedMethod "PUT"] 0).world = 2 := by
  have h := (NewRequest_is_short_circuit_fold
    [Stub.countedMethod "GET", Stub.failingRequest "boom", Stub.countedMethod "PUT"] 0).2.2.2
    1 "boom" (by decide) (by decide)
  exact ⟨((NewRequest_is_short_circuit_fold
      [RequestMethod "GET", RequestURL "http" "127.0.0.1:8080" "/state"] 0).2.2.1
      (by decide)).1, h.1, h.2.1, h.2.2.1, h.2.2.2.trans (by decide)⟩

/-! ## Response dispatch -/

/-- C1: after a successful `client.Do`, `Execute` invokes the handlers in
list order on the response `Do` returned, each at most once. When handler `k`
is the first to return an error `e`, handlers `0..k` are invoked once each,
none after `k`, and `Execute` returns `"handle: " ++ e`; when no handler
returns an error, all are invoked once each and `Execute` returns nil. In
both cases the response and the world `Execute` leaves are those that
exactly the invoked handlers, run one after the other from the response and
world `Do` returned, leave behind, followed by the one `Close`. -/
theorem Execute_handler_chain {B D W : Type} (net : Net B W) (client : Client)
    (req : Request) (handlers : List (ResponseHandlerFunc B D W)) (w : W)
    (resp : Response B) (w1 : W)
    (hdo : net.Do client req w = (DoOutcome.ok resp, w1)) :
    stateBefore handlers (resp, w1) 0 = (resp, w1) ∧
    (∃ m, m ≤ handlers.length ∧
      (Execute net client req handlers w).calls = callLog handlers (resp, w1) 0 m ∧
      (Execute net client req handlers w).calls.map Prod.fst = List.range m) ∧
    (∀ k e, (∀ i, i < k → errAt handlers (resp, w1) i = none) →
      errAt handlers (resp, w1) k = some e →
      (Execute net client req handlers w).calls.map Prod.fst = List.range (k + 1) ∧
      (Execute net client req handlers w).err = some ("handle: " ++ e) ∧
      (Execute net client req handlers w).calls = callLog handlers (resp, w1) 0 (k + 1) ∧
      (Execute net client req handlers w).resp
        = some (stateBefore handlers (resp, w1) (k + 1)).1 ∧
      (Execute net client req handlers w).world
        = (net.Close resp.Body (stateBefore handlers (resp, w1) (k + 1)).2).2 ∧
      (Execute net client req handlers w).closed = [resp.Body]) ∧
    ((∀ i, i < handlers.length → errAt handlers (resp, w1) i = none) →
      (Execute net client req handlers w).calls.map Prod.fst = List.range handlers.length ∧
      (Execute net client req handlers w).err = none ∧
      (Execute net client req handlers w).calls
        = callLog handlers (resp, w1) 0 handlers.length ∧
      (Execute net client req handlers w).resp
        = some (stateBefore handlers (resp, w1) handlers.length).1 ∧
      (Execute net client req handlers w).world
        = (net.Close resp.Body (stateBefore handlers (resp, w1) handlers.length).2).2 ∧
      (Execute net client req handlers w).closed = [resp.Body]) := by
  refine ⟨rfl, ?_, ?_, ?_⟩
  · obtain ⟨m, hm, hc⟩ := rangeLoop_calls_initial handlers 0 (resp, w1)
    refine ⟨m, hm, ?_⟩
    have : (Execute net client req handlers w).calls = callLog handlers (resp, w1) 0 m := by
      simp only [Execute, hdo, Execute.body, DoOutcome.resp]
      cases h : (rangeLoop handlers 0 (resp, w1)).err <;> simp [hc]
    exact ⟨this, by rw [this, callLog_indices]⟩
  · intro k e hbefore hk
    have h := rangeLoop_first_error handlers 0 (resp, w1) k e hbefore hk
    simp [Execute, hdo, Execute.body, DoOutcome.resp, h, callLog_indices]
  · intro hall
    have h := rangeLoop_no_error handlers 0 (resp, w1) hall
    simp [Execute, hdo, Execute.body, DoOutcome.resp, h, callLog_indices]

/-- Witness of `Execute_handler_chain`: the chain `[h1, h2, h3]` of the
specification, where `h2` fails; the world counts two invocations. -/
theorem Execute_handler_chain_witness :
    (Execute (Stub.net (.ok ⟨200, ()⟩) none) New.cli NewRequest.req
      [Stub.passing, Stub.failingHandler "boom", Stub.passing] 0).calls.map Prod.fst
      = [0, 1] ∧
    (Execute (Stub.net (.ok ⟨200, ()⟩) none) New.cli NewRequest.req
      [Stub.passing, Stub.failingHandler "boom", Stub.passing] 0).err
      = some "handle: boom" ∧
    (Execute (Stub.net (.ok ⟨200, ()⟩) none) New.cli NewRequest.req
      [Stub.passing, Stub.failingHandler "boom", Stub.passing] 0).world = 2 ∧
    (Execute (Stub.net (.ok ⟨200, ()⟩) none) New.cli NewRequest.req
      [Stub.passing, Stub.passing, Stub.passing] 0).world = 3 := by
  have h := (Execute_handler_chain (Stub.net (.ok ⟨200, ()⟩) none) New.cli NewRequest.req
    [Stub.passing, Stub.failingHandler "boom", Stub.passing] 0 ⟨200, ()⟩ 0 rfl).2.2.1
    1 "boom" (by decide) (by decide)
  have h3 := (Execute_handler_chain (Stub.net (.ok ⟨200, ()⟩) none) New.cli NewRequest.req
    [Stub.passing, Stub.passing, Stub.passing] 0 ⟨200, ()⟩ 0 rfl).2.2.2 (by decide)
  exact ⟨h.1, h.2.1, h.2.2.2.2.1.trans (by decide), h3.2.2.2.2.1.trans (by decide)⟩

/-- C2: when `client.Do` returns an error `e`, with or without a response,
`Execute` invokes no handler and returns `"send request: " ++ e`: the log is
empty, the response is as `Do` returned it, the world is the one `Do` left,
after the one `Close` when a response came with the error, and the whole
outcome is the one `Execute` has with no handler at all. -/
theorem Execute_send_error {B D W : Type} (net : Net B W) (client : Client)
    (req : Request) (handlers : List (ResponseHandlerFunc B D W)) (w : W)
    (o : DoOutcome B) (w1 : W) (e : GoError)
    (hdo : net.Do client req w = (o, w1)) (herr : o.err = some e) :
    (Execute net client req handlers w).calls = [] ∧
    (Execute net client req handlers w).err = some ("send request: " ++ e) ∧
    (Execute net client req handlers w).resp = o.resp ∧
    (Execute net client req handlers w).world
      = (match o.resp with
         | some resp => (net.Close resp.Body w1).2
         | none => w1) ∧
    (Execute net client req handlers w).closed
      = (match o.resp with
         | some resp => [resp.Body]
         | none => []) ∧
    Execute net client req handlers w = Execute net client req [] w := by
  cases o with
  | ok resp => simp [DoOutcome.err] at herr
  | fail err =>
    simp only [DoOutcome.err, Option.some.injEq] at herr
    subst herr
    simp [Execute, hdo, Execute.body, DoOutcome.resp]
  | failWithResp resp err =>
    simp only [DoOutcome.err, Option.some.injEq] at herr
    subst herr
    simp [Execute, hdo, Execute.body, DoOutcome.resp]

/-- Witness of `Execute_send_error`: `Do` fails and still returns a
response; the counting handler is not invoked, the world still counts zero
invocations, and the body is closed once. -/
theorem Execute_send_error_witness :
    (Execute (Stub.net (.failWithResp ⟨302, ()⟩ "stopped after 10 redirects") none)
      New.cli NewRequest.req [Stub.passing] 0).calls = [] ∧
    (Execute (Stub.net (.failWithResp ⟨302, ()⟩ "stopped after 10 redirects") none)
      New.cli NewRequest.req [Stub.passing] 0).err
      = some "send request: stopped after 10 redirects" ∧
    (Execute (Stub.net (.failWithResp ⟨302, ()⟩ "stopped after 10 redirects") none)
      New.cli NewRequest.req [Stub.passing] 0).world = 0 ∧
    (Execute (Stub.net (.failWithResp ⟨302, ()⟩ "stopped after 10 redirects") none)
      New.cli NewRequest.req [Stub.passing] 0).closed = [()] := by
  have h := Execute_send_error
    (Stub.net (.failWithResp ⟨302, ()⟩ "stopped after 10 redirects") none)
    New.cli NewRequest.req [Stub.passing] 0 _ 0 "stopped after 10 redirects" rfl rfl
  exact ⟨h.1, h.2.1, h.2.2.2.1.trans (by decide), h.2.2.2.2.1.trans (by decide)⟩

/-- C9: whenever `client.Do` returned a response, `Execute` closes the body
that response had, once, after the rest of the function, on each exit path;
when `Do` returned no response nothing is closed; and what `Execute` returns
and which handlers it invokes do not depend on how `Close` behaves. -/
theorem Execute_closes_body {B D W : Type} (net : Net B W) (client : Client)
    (req : Request) (handlers : List (ResponseHandlerFunc B D W)) (w : W)
    (o : DoOutcome B) (w1 : W)
    (hdo : net.Do client req w = (o, w1)) :
    (∀ resp, o.resp = some resp →
      (Execute net client req handlers w).closed = [resp.Body] ∧
      (Execute net client req handlers w).world
        = (net.Close resp.Body (Execute.body o handlers w1).world).2) ∧
    (o.resp = none →
      (Execute net client req handlers w).closed = [] ∧
      (Execute net client req handlers w).world = (Execute.body o handlers w1).world) ∧
    (Execute net client req handlers w).err = (Execute.body o handlers w1).err ∧
    (∀ close : B → W → Option GoError × W,
      (Execute { net with Close := close } client req handlers w).err
        = (Execute net client req handlers w).err ∧
      (Execute { net with Close := close } client req handlers w).calls
        = (Execute net client req handlers w).calls) := by
  have hbody : (Execute.body o handlers w1).closed = [] := by
    cases o with
    | ok resp =>
      simp only [Execute.body]
      cases (rangeLoop handlers 0 (resp, w1)).err <;> rfl
    | fail err => rfl
    | failWithResp resp err => rfl
  have hgen : ∀ close : B → W → Option GoError × W,
      (Execute { net with Close := close } client req handlers w).err
        = (Execute.body o handlers w1).err ∧
      (Execute { net with Close := close } client req handlers w).calls
        = (Execute.body o handlers w1).calls := by
    intro close
    cases ho : o.resp <;> simp [Execute, hdo, ho]
  have hself := hgen net.Close
  refine ⟨?_, ?_, hself.1, ?_⟩
  · intro resp ho
    simp [Execute, hdo, ho]
  · intro ho
    simp [Execute, hdo, ho, hbody]
  · intro close
    exact ⟨(hgen close).1.trans hself.1.symm, (hgen close).2.trans hself.2.symm⟩

/-- Witness of `Execute_closes_body`: a handler fails and `Close` fails too;
the body is closed once and the handler's error is what is returned. -/
theorem Execute_closes_body_witness :
    (Execute (Stub.net (.ok ⟨200, ()⟩) (some "close failed")) New.cli NewRequest.req
      [Stub.failingHandler "boom"] 0).closed = [()] ∧
    (Execute (Stub.net (.ok ⟨200, ()⟩) (some "close failed")) New.cli NewRequest.req
      [Stub.failingHandler "boom"] 0).err = some "handle: boom" := by
  have h := Execute_closes_body (Stub.net (.ok ⟨200, ()⟩) (some "close failed"))
    New.cli NewRequest.req [Stub.failingHandler "boom"] 0 (.ok ⟨200, ()⟩) 0 rfl
  exact ⟨(h.1 ⟨200, ()⟩ rfl).1, by rw [h.2.2.1]; decide⟩

/-! ## The JSON handlers -/

/-- What `readJSON` does: it reads the body, and decodes what it read when
the read succeeded. -/
theorem readJSON_io {B D W : Type} (io : Codec B D W) (d : D) (resp : Response B) (w : W) :
    (readJSON io d (resp, w)).io
      = IOEvent.readAll resp.Body ::
        (match (io.ReadAll resp.Body w).1.2 with
         | some _ => []
         | none => [IOEvent.unmarshal (io.ReadAll resp.Body w).1.1 d]) := by
  simp only [readJSON]
  cases (io.ReadAll resp.Body w).1.2 with
  | some e => rfl
  | none =>
    simp only
    cases (io.Unmarshal (io.ReadAll resp.Body w).1.1 d (io.ReadAll resp.Body w).2).1 <;> rfl

/-- When `readJSON` returns an error: when the read fails, or the read
succeeds and decoding fails. -/
theorem readJSON_err {B D W : Type} (io : Codec B D W) (d : D) (resp : Response B) (w : W) :
    (readJSON io d (resp, w)).err ≠ none ↔
      ((io.ReadAll resp.Body w).1.2 ≠ none ∨
        ((io.ReadAll resp.Body w).1.2 = none ∧
          (io.Unmarshal (io.ReadAll resp.Body w).1.1 d (io.ReadAll resp.Body w).2).1
            ≠ none)) := by
  simp only [readJSON]
  cases h : (io.ReadAll resp.Body w).1.2 with
  | some e => simp
  | none =>
    simp only
    cases h2 : (io.Unmarshal (io.ReadAll resp.Body w).1.1 d (io.ReadAll resp.Body w).2).1
      <;> simp

/-- The state `readJSON` leaves: the response as it was, and the world after
the read and, when the read succeeded, the decoding. -/
theorem readJSON_state {B D W : Type} (io : Codec B D W) (d : D) (resp : Response B)
    (w : W) :
    (readJSON io d (resp, w)).state
      = (resp, match (io.ReadAll resp.Body w).1.2 with
               | some _ => (io.ReadAll resp.Body w).2
               | none =>
                 (io.Unmarshal (io.ReadAll resp.Body w).1.1 d (io.ReadAll resp.Body w).2).2) := by
  simp only [readJSON]
  cases (io.ReadAll resp.Body w).1.2 with
  | some e => rfl
  | none =>
    simp only
    cases (io.Unmarshal (io.ReadAll resp.Body w).1.1 d (io.ReadAll resp.Body w).2).1 <;> rfl

/-- C7: the handler `HandleSuccessJSONResponse(v)` acts, that is reads the
body and, the read succeeding, decodes what it read into `v`, exactly when
the status code is in [200,299] and `v` is non-nil; otherwise it returns nil,
performs no read and no decoding and leaves response and world (so `v`) as
they were. When it acts, it returns an error exactly when the read fails or
the decoding fails. -/
theorem HandleSuccessJSONResponse_acts_iff {B D W : Type} (io : Codec B D W)
    (v : Option D) (resp : Response B) (w : W) :
    ((HandleSuccessJSONResponse io v (resp, w)).io ≠ [] ↔
      (200 ≤ resp.StatusCode ∧ resp.StatusCode ≤ 299 ∧ v ≠ none)) ∧
    (∀ d, v = some d → 200 ≤ resp.StatusCode → resp.StatusCode ≤ 299 →
      (HandleSuccessJSONResponse io v (resp, w)).io
        = IOEvent.readAll resp.Body ::
          (match (io.ReadAll resp.Body w).1.2 with
           | some _ => []
           | none => [IOEvent.unmarshal (io.ReadAll resp.Body w).1.1 d]) ∧
      (HandleSuccessJSONResponse io v (resp, w)).state
        = (resp, match (io.ReadAll resp.Body w).1.2 with
                 | some _ => (io.ReadAll resp.Body w).2
                 | none =>
                   (io.Unmarshal (io.ReadAll resp.Body w).1.1 d
                     (io.ReadAll resp.Body w).2).2) ∧
      ((HandleSuccessJSONResponse io v (resp, w)).err ≠ none ↔
        ((io.ReadAll resp.Body w).1.2 ≠ none ∨
          ((io.ReadAll resp.Body w).1.2 = none ∧
            (io.Unmarshal (io.ReadAll resp.Body w).1.1 d (io.ReadAll resp.Body w).2).1
              ≠ none)))) ∧
    (¬ (200 ≤ resp.StatusCode ∧ resp.StatusCode ≤ 299 ∧ v ≠ none) →
      HandleSuccessJSONResponse io v (resp, w) = ⟨(resp, w), [], none⟩) := by
  refine ⟨?_, ?_, ?_⟩
  · cases v with
    | none => simp [HandleSuccessJSONResponse]
    | some d =>
      by_cases hc : resp.StatusCode ≥ 200 ∧ resp.StatusCode ≤ 299
      · simp only [HandleSuccessJSONResponse, hc, and_self, ↓reduceIte, readJSON_io]
        simp [hc.1, hc.2]
      · simp only [HandleSuccessJSONResponse, hc, ↓reduceIte]
        simp only [ne_eq, not_true_eq_false, false_iff]
        intro h
        exact hc ⟨h.1, h.2.1⟩
  · intro d hv h1 h2
    subst hv
    have hc : resp.StatusCode ≥ 200 ∧ resp.StatusCode ≤ 299 := ⟨h1, h2⟩
    simp only [HandleSuccessJSONResponse, hc, and_self, ↓reduceIte]
    exact ⟨readJSON_io io d resp w, readJSON_state io d resp w, readJSON_err io d resp w⟩
  · intro hn
    cases v with
    | none => simp [HandleSuccessJSONResponse]
    | some d =>
      have hc : ¬ (resp.StatusCode ≥ 200 ∧ resp.StatusCode ≤ 299) := by
        intro h
        exact hn ⟨h.1, h.2, by simp⟩
      simp only [HandleSuccessJSONResponse, hc, ↓reduceIte]

/-- Witness of `HandleSuccessJSONResponse_acts_iff`: on status 404 the handler
does nothing; on status 200 it reads the body and decodes it. -/
theorem HandleSuccessJSONResponse_acts_iff_witness :
    HandleSuccessJSONResponse (Scenario.codec Scenario.UnmarshalError Scenario.UnmarshalState)
        (some Scenario.Dest.dest) (⟨404, ()⟩, { Scenario.world0 with stream := "x" })
      = ⟨(⟨404, ()⟩, { Scenario.world0 with stream := "x" }), [], none⟩ ∧
    (HandleSuccessJSONResponse (Scenario.codec Scenario.UnmarshalError Scenario.UnmarshalState)
        (some Scenario.Dest.dest)
        (⟨200, ()⟩, { Scenario.world0 with stream := "\x7b\"value\":\"ok\"\x7d" })).state.2.dest
      = { Value := "ok" } :=
  ⟨(HandleSuccessJSONResponse_acts_iff
      (Scenario.codec Scenario.UnmarshalError Scenario.UnmarshalState)
      (some Scenario.Dest.dest) ⟨404, ()⟩ { Scenario.world0 with stream := "x" }).2.2
      (by decide),
   (congrArg (fun s => s.2.dest)
      ((HandleSuccessJSONResponse_acts_iff
        (Scenario.codec Scenario.UnmarshalError Scenario.UnmarshalState)
        (some Scenario.Dest.dest) ⟨200, ()⟩
        { Scenario.world0 with stream := "\x7b\"value\":\"ok\"\x7d" }).2.1
        Scenario.Dest.dest rfl (by decide) (by decide)).2.1).trans (by decide)⟩

/-- Outside its status range, or with a nil destination, the success handler
does nothing. -/
theorem HandleSuccessJSONResponse_idle {B D W : Type} (io : Codec B D W) (v : Option D)
    (resp : Response B) (w : W)
    (h : ¬ (200 ≤ resp.StatusCode ∧ resp.StatusCode ≤ 299 ∧ v ≠ none)) :
    HandleSuccessJSONResponse io v (resp, w) = ⟨(resp, w), [], none⟩ := by
  cases v with
  | none => simp [HandleSuccessJSONResponse]
  | some d =>
    have hc : ¬ (resp.StatusCode ≥ 200 ∧ resp.StatusCode ≤ 299) := by
      intro h2
      exact h ⟨h2.1, h2.2, by simp⟩
    simp only [HandleSuccessJSONResponse, hc, ↓reduceIte]

/-- Outside its status range, or with a nil destination, the fail handler
does nothing. -/
theorem HandleFailJSONResponse_idle {B D W : Type} (io : Codec B D W) (v : Option D)
    (resp : Response B) (w : W)
    (h : ¬ (400 ≤ resp.StatusCode ∧ resp.StatusCode ≤ 599 ∧ v ≠ none)) :
    HandleFailJSONResponse io v (resp, w) = ⟨(resp, w), [], none⟩ := by
  cases v with
  | none => simp [HandleFailJSONResponse]
  | some d =>
    have hc : ¬ (resp.StatusCode ≥ 400 ∧ resp.StatusCode ≤ 599) := by
      intro h2
      exact h ⟨h2.1, h2.2, by simp⟩
    simp only [HandleFailJSONResponse, hc, ↓reduceIte]

/-- Inside its status range and with a destination, the success handler
runs `readJSON`. -/
theorem HandleSuccessJSONResponse_active {B D W : Type} (io : Codec B D W) (d : D)
    (resp : Response B) (w : W)
    (h1 : 200 ≤ resp.StatusCode) (h2 : resp.StatusCode ≤ 299) :
    HandleSuccessJSONResponse io (some d) (resp, w) = readJSON io d (resp, w) := by
  have hc : resp.StatusCode ≥ 200 ∧ resp.StatusCode ≤ 299 := ⟨h1, h2⟩
  simp only [HandleSuccessJSONResponse, hc, and_self, ↓reduceIte]

/-- Inside its status range and with a destination, the fail handler runs
`readJSON`. -/
theorem HandleFailJSONResponse_active {B D W : Type} (io : Codec B D W) (d : D)
    (resp : Response B) (w : W)
    (h1 : 400 ≤ resp.StatusCode) (h2 : resp.StatusCode ≤ 599) :
    HandleFailJSONResponse io (some d) (resp, w) = readJSON io d (resp, w) := by
  have hc : resp.StatusCode ≥ 400 ∧ resp.StatusCode ≤ 599 := ⟨h1, h2⟩
  simp only [HandleFailJSONResponse, hc, and_self, ↓reduceIte]

/-- C8: for every integer status code `s`, the fail-JSON handler performs a
read or a decoding only if `400 ≤ s ≤ 599`, the success-JSON handler only if
`200 ≤ s ≤ 299`, never both on the same `s`; and for `s` in [300,399] or
outside [200,599], negative and zero included, both return nil without any
read or decoding, leaving response and world as they were. -/
theorem JSON_handlers_status_ranges {B D W : Type} (io : Codec B D W) (s : Int)
    (vf vs : Option D) (bf bs : B) (wf ws : W) :
    ((HandleFailJSONResponse io vf (⟨s, bf⟩, wf)).io ≠ [] ↔
      (400 ≤ s ∧ s ≤ 599 ∧ vf ≠ none)) ∧
    ((HandleSuccessJSONResponse io vs (⟨s, bs⟩, ws)).io ≠ [] ↔
      (200 ≤ s ∧ s ≤ 299 ∧ vs ≠ none)) ∧
    ¬ ((HandleFailJSONResponse io vf (⟨s, bf⟩, wf)).io ≠ [] ∧
       (HandleSuccessJSONResponse io vs (⟨s, bs⟩, ws)).io ≠ []) ∧
    (((300 ≤ s ∧ s ≤ 399) ∨ s < 200 ∨ 599 < s) →
      HandleFailJSONResponse io vf (⟨s, bf⟩, wf) = ⟨(⟨s, bf⟩, wf), [], none⟩ ∧
      HandleSuccessJSONResponse io vs (⟨s, bs⟩, ws) = ⟨(⟨s, bs⟩, ws), [], none⟩) := by
  have hf : (HandleFailJSONResponse io vf (⟨s, bf⟩, wf)).io ≠ [] ↔
      (400 ≤ s ∧ s ≤ 599 ∧ vf ≠ none) := by
    constructor
    · intro h
      by_contra hn
      exact h (by rw [HandleFailJSONResponse_idle io vf ⟨s, bf⟩ wf hn])
    · intro h
      obtain ⟨d, hd⟩ := Option.ne_none_iff_exists'.mp h.2.2
      subst hd
      rw [HandleFailJSONResponse_active io d ⟨s, bf⟩ wf h.1 h.2.1, readJSON_io]
      simp
  have hs : (HandleSuccessJSONResponse io vs (⟨s, bs⟩, ws)).io ≠ [] ↔
      (200 ≤ s ∧ s ≤ 299 ∧ vs ≠ none) := by
    constructor
    · intro h
      by_contra hn
      exact h (by rw [HandleSuccessJSONResponse_idle io vs ⟨s, bs⟩ ws hn])
    · intro h
      obtain ⟨d, hd⟩ := Option.ne_none_iff_exists'.mp h.2.2
      subst hd
      rw [HandleSuccessJSONResponse_active io d ⟨s, bs⟩ ws h.1 h.2.1, readJSON_io]
      simp
  refine ⟨hf, hs, ?_, ?_⟩
  · rintro ⟨h1, h2⟩
    have a := hf.mp h1
    have b := hs.mp h2
    omega
  · intro h
    constructor
    · apply HandleFailJSONResponse_idle
      simp only
      omega
    · apply HandleSuccessJSONResponse_idle
      simp only
      omega

/-- Witness of `JSON_handlers_status_ranges`: on status 302, and on status
-1, neither handler touches a body that has unread data. -/
theorem JSON_handlers_status_ranges_witness :
    (HandleFailJSONResponse (Scenario.codec Scenario.UnmarshalError Scenario.UnmarshalState)
        (some Scenario.Dest.errDest) (⟨302, ()⟩, { Scenario.world0 with stream := "x" })
      = ⟨(⟨302, ()⟩, { Scenario.world0 with stream := "x" }), [], none⟩ ∧
     HandleSuccessJSONResponse (Scenario.codec Scenario.UnmarshalError Scenario.UnmarshalState)
        (some Scenario.Dest.dest) (⟨302, ()⟩, { Scenario.world0 with stream := "x" })
      = ⟨(⟨302, ()⟩, { Scenario.world0 with stream := "x" }), [], none⟩) ∧
    (HandleFailJSONResponse (Scenario.codec Scenario.UnmarshalError Scenario.UnmarshalState)
        (some Scenario.Dest.errDest) (⟨-1, ()⟩, { Scenario.world0 with stream := "x" })
      = ⟨(⟨-1, ()⟩, { Scenario.world0 with stream := "x" }), [], none⟩ ∧
     HandleSuccessJSONResponse (Scenario.codec Scenario.UnmarshalError Scenario.UnmarshalState)
        (some Scenario.Dest.dest) (⟨-1, ()⟩, { Scenario.world0 with stream := "x" })
      = ⟨(⟨-1, ()⟩, { Scenario.world0 with stream := "x" }), [], none⟩) :=
  ⟨(JSON_handlers_status_ranges
      (Scenario.codec Scenario.UnmarshalError Scenario.UnmarshalState) 302
      (some Scenario.Dest.errDest) (some Scenario.Dest.dest) () ()
      { Scenario.world0 with stream := "x" } { Scenario.world0 with stream := "x" }).2.2.2
      (by decide),
   (JSON_handlers_status_ranges
      (Scenario.codec Scenario.UnmarshalError Scenario.UnmarshalState) (-1)
      (some Scenario.Dest.errDest) (some Scenario.Dest.dest) () ()
      { Scenario.world0 with stream := "x" } { Scenario.world0 with stream := "x" }).2.2.2
      (by decide)⟩

/-! ## The TLS option -/

/-- C10: when the CA file is readable and holds at least one certificate,
`TLSTransport` succeeds. On a client whose transport is an `*http.Transport`,
in particular the baseline client of `New`, it changes only the TLS
configuration of that transport: the client timeout and every other
transport setting are as before. Only a client whose transport is nil or of
another kind gets a fresh transport that carries the TLS configuration and
nothing else. -/
theorem TLSTransport_frame {W : Type} (env : TLSEnv W) (CA : String) (cli : Client) (w : W)
    (pem : Bytes)
    (hread : env.ReadFile CA w = Except.ok pem)
    (hok : (env.AppendCertsFromPEM env.NewCertPool pem).2 = true) :
    (TLSTransport env CA (cli, w)).err = none ∧
    (TLSTransport env CA (cli, w)).state.2 = w ∧
    (TLSTransport env CA (cli, w)).state.1.Timeout = cli.Timeout ∧
    (∀ t, cli.Transport = RoundTripper.transport t →
      ∃ t2, (TLSTransport env CA (cli, w)).state.1.Transport = RoundTripper.transport t2 ∧
        t2.TLSClientConfig
          = some (TLSConfig.withRootCAs (env.AppendCertsFromPEM env.NewCertPool pem).1) ∧
        t2 = { t with TLSClientConfig := t2.TLSClientConfig } ∧
        t2.Proxy = t.Proxy ∧ t2.DialContext = t.DialContext ∧
        t2.MaxIdleConns = t.MaxIdleConns ∧
        t2.MaxIdleConnsPerHost = t.MaxIdleConnsPerHost ∧
        t2.IdleConnTimeout = t.IdleConnTimeout ∧
        t2.TLSHandshakeTimeout = t.TLSHandshakeTimeout ∧
        t2.ExpectContinueTimeout = t.ExpectContinueTimeout ∧
        t2.DisableCompression = t.DisableCompression ∧
        t2.DisableKeepAlives = t.DisableKeepAlives) ∧
    ((∀ t, cli.Transport ≠ RoundTripper.transport t) →
      (TLSTransport env CA (cli, w)).state.1.Transport
        = RoundTripper.transport
            { Transport.zero with
              TLSClientConfig :=
                some (TLSConfig.withRootCAs
                  (env.AppendCertsFromPEM env.NewCertPool pem).1) }) ∧
    (New [TLSTransport env CA] w).err = none ∧
    (New [TLSTransport env CA] w).client
      = some { Timeout := 20 * Second,
               Transport := RoundTripper.transport
                 { New.transport with
                   TLSClientConfig :=
                     some (TLSConfig.withRootCAs
                       (env.AppendCertsFromPEM env.NewCertPool pem).1) } } := by
  have hok2 : (!(env.AppendCertsFromPEM env.NewCertPool pem).2) = false := by simp [hok]
  refine ⟨?_, ?_, ?_, ?_, ?_, ?_, ?_⟩
  · simp only [TLSTransport, hread, hok2]
    cases cli.Transport <;> simp
  · simp only [TLSTransport, hread, hok2]
    cases cli.Transport <;> simp
  · simp only [TLSTransport, hread, hok2]
    cases cli.Transport <;> simp
  · intro t ht
    have hc : (TLSTransport env CA (cli, w)).state.1.Transport
        = RoundTripper.transport
            { t with
              TLSClientConfig :=
                some (TLSConfig.withRootCAs
                  (env.AppendCertsFromPEM env.NewCertPool pem).1) } := by
      simp [TLSTransport, hread, hok2, ht]
    exact ⟨_, hc, rfl, rfl, rfl, rfl, rfl, rfl, rfl, rfl, rfl, rfl, rfl⟩
  · intro hne
    simp only [TLSTransport, hread, hok2]
    cases hT : cli.Transport with
    | nil => simp
    | transport t => exact absurd hT (hne t)
    | other id => simp
  · simp [New, rangeLoop, TLSTransport, hread, hok2, New.cli]
  · simp [New, rangeLoop, TLSTransport, hread, hok2, New.cli]

/-- Witness of `TLSTransport_frame`: the option applied to the baseline
client, with a CA file that holds one certificate. -/
theorem TLSTransport_frame_witness :
    (TLSTransport Stub.tlsEnv "ca.pem" (New.cli, 0)).err = none ∧
    (TLSTransport Stub.tlsEnv "ca.pem" (New.cli, 0)).state.1.Timeout = 20000000000 ∧
    (New [TLSTransport Stub.tlsEnv "ca.pem"] 0).client
      = some { Timeout := 20 * Second,
               Transport := RoundTripper.transport
                 { New.transport with
                   TLSClientConfig :=
                     some (TLSConfig.withRootCAs ["-----BEGIN CERTIFICATE-----"]) } } := by
  have h := TLSTransport_frame Stub.tlsEnv "ca.pem" New.cli 0 "-----BEGIN CERTIFICATE-----"
    rfl rfl
  exact ⟨h.1, h.2.2.1.trans (by decide), h.2.2.2.2.2.2⟩

/-! ## The end-to-end scenario: status 503, body `{"error":"unavailable"}` -/

/-- C6, as stated, fails: with the package's `HandleFailJSONResponse(errDest)`
first and `HandleSuccessJSONResponse(dest)` second, on status 503 and body
`{"error":"unavailable"}`, `Execute` returns nil: the fail handler decodes
the body into `errDest` and returns no error. -/
theorem Execute_library_fail_handler_returns_nil :
    (Execute (Scenario.net 503 Scenario.unavailable) New.cli NewRequest.req
      [HandleFailJSONResponse
         (Scenario.codec Scenario.UnmarshalError Scenario.UnmarshalState)
         (some Scenario.Dest.errDest),
       HandleSuccessJSONResponse
         (Scenario.codec Scenario.UnmarshalError Scenario.UnmarshalState)
         (some Scenario.Dest.dest)]
      Scenario.world0).err = none ∧
    (Execute (Scenario.net 503 Scenario.unavailable) New.cli NewRequest.req
      [HandleFailJSONResponse
         (Scenario.codec Scenario.UnmarshalError Scenario.UnmarshalState)
         (some Scenario.Dest.errDest),
       HandleSuccessJSONResponse
         (Scenario.codec Scenario.UnmarshalError Scenario.UnmarshalState)
         (some Scenario.Dest.dest)]
      Scenario.world0).world.errDest = { Text := "unavailable" } := by
  decide

/-- C6, amended: on status 503 and body `{"error":"unavailable"}`, with
`HandleSuccessJSONResponse(dest)` second, `Execute` returns the failure
`"handle: unavailable"` when the first handler is the example program's
`HandleFailJSONResponse()`, and returns nil, with the text decoded into
`errDest`, when the first handler is the package's
`HandleFailJSONResponse(errDest)`; in both cases the success handler is
invoked at most to do nothing and `dest` is left as it was. -/
theorem Execute_unavailable_scenario
    (UnmarshalError : Bytes → Example.Error → Example.Error × Option GoError)
    (UnmarshalState : Bytes → Example.State → Example.State × Option GoError)
    (client : Client) (req : Request) (w0 : Scenario.World)
    (hdec : ∀ old, UnmarshalError Scenario.unavailable old
                     = ({ Text := "unavailable" }, none)) :
    (Execute (Scenario.net 503 Scenario.unavailable) client req
      [Example.HandleFailJSONResponse (Scenario.codec UnmarshalError UnmarshalState)
         UnmarshalError,
       HandleSuccessJSONResponse (Scenario.codec UnmarshalError UnmarshalState)
         (some Scenario.Dest.dest)] w0).err = some "handle: unavailable" ∧
    (Execute (Scenario.net 503 Scenario.unavailable) client req
      [Example.HandleFailJSONResponse (Scenario.codec UnmarshalError UnmarshalState)
         UnmarshalError,
       HandleSuccessJSONResponse (Scenario.codec UnmarshalError UnmarshalState)
         (some Scenario.Dest.dest)] w0).calls.map Prod.fst = [0] ∧
    (Execute (Scenario.net 503 Scenario.unavailable) client req
      [Example.HandleFailJSONResponse (Scenario.codec UnmarshalError UnmarshalState)
         UnmarshalError,
       HandleSuccessJSONResponse (Scenario.codec UnmarshalError UnmarshalState)
         (some Scenario.Dest.dest)] w0).world.dest = w0.dest ∧
    (Execute (Scenario.net 503 Scenario.unavailable) client req
      [HandleFailJSONResponse (Scenario.codec UnmarshalError UnmarshalState)
         (some Scenario.Dest.errDest),
       HandleSuccessJSONResponse (Scenario.codec UnmarshalError UnmarshalState)
         (some Scenario.Dest.dest)] w0).err = none ∧
    (Execute (Scenario.net 503 Scenario.unavailable) client req
      [HandleFailJSONResponse (Scenario.codec UnmarshalError UnmarshalState)
         (some Scenario.Dest.errDest),
       HandleSuccessJSONResponse (Scenario.codec UnmarshalError UnmarshalState)
         (some Scenario.Dest.dest)] w0).world.errDest = { Text := "unavailable" } ∧
    (Execute (Scenario.net 503 Scenario.unavailable) client req
      [HandleFailJSONResponse (Scenario.codec UnmarshalError UnmarshalState)
         (some Scenario.Dest.errDest),
       HandleSuccessJSONResponse (Scenario.codec UnmarshalError UnmarshalState)
         (some Scenario.Dest.dest)] w0).world.dest = w0.dest := by
  simp [Execute, Execute.body, DoOutcome.resp, Scenario.net, rangeLoop,
    Example.HandleFailJSONResponse, HandleFailJSONResponse, HandleSuccessJSONResponse,
    readJSON, Scenario.codec, hdec, Example.Error.Error]

/-- Witness of `Execute_unavailable_scenario`, with the stand-in decoders. -/
theorem Execute_unavailable_scenario_witness :
    (Execute (Scenario.net 503 Scenario.unavailable) New.cli NewRequest.req
      [Example.HandleFailJSONResponse
         (Scenario.codec Scenario.UnmarshalError Scenario.UnmarshalState)
         Scenario.UnmarshalError,
       HandleSuccessJSONResponse
         (Scenario.codec Scenario.UnmarshalError Scenario.UnmarshalState)
         (some Scenario.Dest.dest)] Scenario.world0).err = some "handle: unavailable" ∧
    (Execute (Scenario.net 503 Scenario.unavailable) New.cli NewRequest.req
      [Example.HandleFailJSONResponse
         (Scenario.codec Scenario.UnmarshalError Scenario.UnmarshalState)
         Scenario.UnmarshalError,
       HandleSuccessJSONResponse
         (Scenario.codec Scenario.UnmarshalError Scenario.UnmarshalState)
         (some Scenario.Dest.dest)] Scenario.world0).world.dest = { Value := "initial" } := by
  have h := Execute_unavailable_scenario Scenario.UnmarshalError Scenario.UnmarshalState
    New.cli NewRequest.req Scenario.world0 (fun _ => rfl)
  exact ⟨h.1, h.2.2.1⟩

end Httpcli
